import Mathlib

/-!
Shallow embedding of the LearnCrafter course-publishing pipeline
(`src/app/agents/course_publisher.py`, `src/app/api/routes/courses.py`,
`src/app/api/routes/concepts.py`, `src/app/services/database.py`,
`src/app/services/prompt_service.py`, `src/app/models/schemas.py`).

External collaborators (the LLM `generate_content`, `json.loads` of the two
plan shapes, and the fallibility of each Supabase call) are modelled by an
environment `Env` of oracles; the orchestrator's control flow, state updates
and exception handling are translated statement by statement from the source.
Python exceptions are `Except Err`; a caught exception keeps the state at the
point of the raise (functions are written in explicit state-passing style so
that partial effects survive a catch, as they do in Python).
-/

/-- Pydantic `ConceptPlan` (schemas.py): title required, description optional,
learning_objectives / prerequisites defaulting to []. -/
structure ConceptPlan where
  title : String
  description : Option String := none
  learning_objectives : List String := []
  prerequisites : List String := []
deriving Repr, DecidableEq

/-- Pydantic `ModulePlan` (schemas.py): title, optional description, optional
nested concepts. -/
structure ModulePlan where
  title : String
  description : Option String := none
  concepts : Option (List ConceptPlan) := none
deriving Repr, DecidableEq

/-- Pydantic `CoursePublishJobRequest` (schemas.py). Topic and level are opaque
enum values, modelled as strings. -/
structure CoursePublishJobRequest where
  topic : String
  level : String := "beginner"
  course_title : Option String := none
  course_description : Option String := none
  modules : Option (List ModulePlan) := none
  num_modules : Nat := 3
  concepts_per_module : Nat := 5
deriving Repr, DecidableEq

/-- One entry of the `module_plans` list of a course plan.  Both producers of
the plan (`_plan_course_and_modules`' manual branch, lines 196-206, and the
LLM/JSON branch whose shape is dictated by `COURSE_PLANNER_PROMPT`) emit
exactly the keys `module_title` and `module_description`. -/
structure RawModulePlan where
  module_title : String
  module_description : String
deriving Repr, DecidableEq

/-- The course plan dict produced by `_plan_course_and_modules`. -/
structure CoursePlan where
  course_title : String
  course_description : String
  module_plans : List RawModulePlan
deriving Repr, DecidableEq

/-- One entry of the parsed `concepts` list in `_plan_concepts`
(`CONCEPT_DETAIL_PROMPT` shape: keys `concept_title`, `concept_description`,
`learning_objectives`, `prerequisites`). -/
structure RawConcept where
  concept_title : String
  concept_description : Option String := none
  learning_objectives : List String := []
  prerequisites : List String := []
deriving Repr, DecidableEq

/-- A row of the `courses` table, with the fields the orchestrator writes
(`_create_course_entry`).  Ids are opaque unique values; we model the id
assigned by an insert as the row count of the table at insertion time. -/
structure CourseRow where
  id : Nat
  title : String
  description : String
  topic : String
  level : String
deriving Repr, DecidableEq

/-- A row of the `modules` table (`_create_module_entry`). -/
structure ModuleRow where
  id : Nat
  course_id : Nat
  title : String
  description : Option String
  order_index : Nat
deriving Repr, DecidableEq

/-- A row of the `concepts` table (`_create_concept_entries`). -/
structure ConceptRow where
  id : Nat
  module_id : Nat
  title : String
  description : Option String
  order_index : Nat
  learning_objectives : List String
  prerequisites : List String
  content : String
deriving Repr, DecidableEq

/-- The record store: three append-only-plus-update tables. -/
structure DB where
  courses : List CourseRow
  modules : List ModuleRow
  concepts : List ConceptRow
deriving Repr, DecidableEq

/-- Python exceptions relevant to the pipeline. -/
inductive Err where
  /-- `course_service.generate_content` raised. -/
  | genError
  /-- `json.loads` (or the subsequent shape access) raised. -/
  | parseError
  /-- Python `TypeError` (bad call signature). -/
  | typeError
deriving Repr, DecidableEq

/-- Environment of external collaborators.  Every fallible external call is
an oracle indexed by how many calls of that kind were made before it. -/
structure Env where
  /-- Result of the k-th `course_service.generate_content` call
  (`none` = the call raises). -/
  llm : Nat → Option String
  /-- `json.loads` of a course-plan response plus its shape accesses
  (`none` = parse failure, which raises). -/
  parseCoursePlan : String → Option CoursePlan
  /-- `json.loads` of a concepts response plus `.get("concepts", [])`
  (`none` = parse failure, which raises). -/
  parseConcepts : String → Option (List RawConcept)
  /-- Whether `db_service.create_course` succeeds (`false` = raises). -/
  createCourseOk : Bool
  /-- Whether the k-th `db_service.create_module` call succeeds. -/
  createModuleOk : Nat → Bool
  /-- Whether the k-th `db_service.create_concept` call succeeds. -/
  createConceptOk : Nat → Bool
  /-- Whether the k-th `db_service.get_module` call succeeds. -/
  getModuleOk : Nat → Bool
  /-- Whether the k-th `db_service.update_concept` call succeeds. -/
  updateConceptOk : Nat → Bool

/-- Mutable state of one `CoursePublishingAgent.publish_course` run: the
record store, the per-kind external-call counters, and the agent's own
`self.current_step` / `self.total_steps` counters. -/
structure St where
  db : DB
  llmCalls : Nat
  createModuleCalls : Nat
  createConceptCalls : Nat
  getModuleCalls : Nat
  updateConceptCalls : Nat
  current_step : Nat
  total_steps : Nat
deriving Repr, DecidableEq

/-- Python truthiness of an optional string (`None` and `""` are falsy). -/
def truthyStr : Option String → Bool
  | none => false
  | some s => !(s == "")

/-- Python truthiness of an optional list (`None` and `[]` are falsy). -/
def truthyList {α : Type} : Option (List α) → Bool
  | none => false
  | some l => !l.isEmpty

/-- One call of `course_service.generate_content`: consumes one index of the
LLM oracle; `none` means the provider raised. -/
def generate_content (env : Env) (s : St) : Except Err String × St :=
  let s' : St := { s with llmCalls := s.llmCalls + 1 }
  match env.llm s.llmCalls with
  | none => (Except.error Err.genError, s')
  | some txt => (Except.ok txt, s')

/-- Embeds `_plan_course_and_modules` (course_publisher.py lines 186-235).  The
manual branch fires iff `job_request.course_title and job_request.modules`
is truthy; the LLM branch raises on generator failure or parse failure. -/
def plan_course_and_modules (env : Env) (req : CoursePublishJobRequest)
    (s : St) : Except Err CoursePlan × St :=
  if truthyStr req.course_title && truthyList req.modules then
    (Except.ok
      { course_title := req.course_title.getD ""
        course_description := req.course_description.getD ""
        module_plans := (req.modules.getD []).map fun m =>
          { module_title := m.title
            module_description := m.description.getD "" } }, s)
  else
    match generate_content env s with
    | (Except.error e, s') => (Except.error e, s')
    | (Except.ok txt, s') =>
      match env.parseCoursePlan txt with
      | none => (Except.error Err.parseError, s')
      | some plan => (Except.ok plan, s')

/-- Embeds `_create_course_entry` (lines 237-263): a raising `create_course` is
caught and turned into `None`; success inserts the row and returns its id. -/
def create_course_entry (env : Env) (req : CoursePublishJobRequest)
    (plan : CoursePlan) (s : St) : Option Nat × St :=
  if env.createCourseOk then
    let cid := s.db.courses.length
    let row : CourseRow :=
      { id := cid, title := plan.course_title
        description := plan.course_description
        topic := req.topic, level := req.level }
    (some cid, { s with db := { s.db with courses := s.db.courses ++ [row] } })
  else (none, s)

/-- Embeds `_create_module_entry` (lines 314-337): a raising `create_module` is
caught and turned into `None`. -/
def create_module_entry (env : Env) (course_id : Nat) (mp : ModulePlan)
    (order_index : Nat) (s : St) : Option Nat × St :=
  let k := s.createModuleCalls
  let s' : St := { s with createModuleCalls := k + 1 }
  if env.createModuleOk k then
    let mid := s'.db.modules.length
    let row : ModuleRow :=
      { id := mid, course_id := course_id, title := mp.title
        description := mp.description, order_index := order_index }
    (some mid,
      { s' with db := { s'.db with modules := s'.db.modules ++ [row] } })
  else (none, s')

/-- Inner scan of `_get_manual_concepts` (lines 339-351): first module whose
title matches and whose `concepts` field is truthy. -/
def find_manual_concepts (module_title : String) :
    List ModulePlan → Option (List ConceptPlan)
  | [] => none
  | m :: rest =>
    if m.title == module_title && truthyList m.concepts then m.concepts
    else find_manual_concepts module_title rest

/-- Embeds `_get_manual_concepts`: guarded by `if job_request.modules:` (truthiness). -/
def get_manual_concepts (req : CoursePublishJobRequest)
    (module_title : String) : Option (List ConceptPlan) :=
  if truthyList req.modules then
    find_manual_concepts module_title (req.modules.getD [])
  else none

/-- Embeds `_plan_concepts` (lines 353-409).  With truthy manual concepts they are
returned as-is; otherwise one LLM call and a JSON parse, both raising on
failure (and the raise is NOT caught by the caller); each parsed concept dict
has its `concept_title`/`concept_description` keys renamed before
`ConceptPlan(**c)`. -/
def plan_concepts (env : Env) (manual_concepts : Option (List ConceptPlan))
    (s : St) : Except Err (List ConceptPlan) × St :=
  if truthyList manual_concepts then
    (Except.ok (manual_concepts.getD []), s)
  else
    match generate_content env s with
    | (Except.error e, s') => (Except.error e, s')
    | (Except.ok txt, s') =>
      match env.parseConcepts txt with
      | none => (Except.error Err.parseError, s')
      | some raws =>
        (Except.ok (raws.map fun c =>
          { title := c.concept_title
            description := c.concept_description
            learning_objectives := c.learning_objectives
            prerequisites := c.prerequisites }), s')

/-- The call `prompt_service.generate_concept_prompt(concept_plan,
module_context=module_context, workflow_step=workflow_step)` at
course_publisher.py lines 465-467.  `PromptService.generate_concept_prompt`
(src/app/services/prompt_service.py lines 116-118) has parameters
`(concept_data, module_context=None, course_context=None)` and no
`workflow_step` parameter, so Python raises
`TypeError: got an unexpected keyword argument` at the call site (and the
method is a plain `def` returning `str`, so the `await` would raise
`TypeError` as well). -/
def generate_concept_prompt_call : Except Err String :=
  Except.error Err.typeError

/-- Sets the `content` field of the concept row with the given id
(`db_service.update_concept(concept_id, {"content": content})`). -/
def set_concept_content (rows : List ConceptRow) (cid : Nat)
    (content : String) : List ConceptRow :=
  rows.map fun r => if r.id == cid then { r with content := content } else r

/-- Body of the `try` block of the per-concept loop in
`_create_concept_entries` (lines 433-478), together with the
`except Exception` handler (lines 479-481) that logs and continues: any raise
inside the unit leaves the state as of the raise and the loop proceeds. -/
def create_concept_body (env : Env) (module_id : Nat) (cp : ConceptPlan)
    (order_index : Nat) (s : St) : St :=
  let k := s.createConceptCalls
  let s1 : St := { s with createConceptCalls := k + 1 }
  if env.createConceptOk k then
    let cid := s1.db.concepts.length
    let row : ConceptRow :=
      { id := cid, module_id := module_id, title := cp.title
        description := cp.description, order_index := order_index
        learning_objectives := cp.learning_objectives
        prerequisites := cp.prerequisites
        content := "" }
    let s2 : St :=
      { s1 with db := { s1.db with concepts := s1.db.concepts ++ [row] } }
    let g := s2.getModuleCalls
    let s3 : St := { s2 with getModuleCalls := g + 1 }
    if env.getModuleOk g then
      -- `get_module` returned; the module-context dict built from it feeds
      -- only the prompt call below, which raises before using it.
      match generate_concept_prompt_call with
      | Except.error _ => s3
      | Except.ok _prompt =>
        match generate_content env s3 with
        | (Except.error _, s4) => s4
        | (Except.ok content, s4) =>
          let u := s4.updateConceptCalls
          let s5 : St := { s4 with updateConceptCalls := u + 1 }
          if env.updateConceptOk u then
            { s5 with db := { s5.db with
                concepts := set_concept_content s5.db.concepts cid content } }
          else s5
    else s3
  else s1

/-- The per-concept loop of `_create_concept_entries` (lines 421-481):
`self.current_step += 1` happens before the `try`; `i` is the 0-based
enumerate index, the row gets `order_index = i + 1`. -/
def concepts_loop (env : Env) (module_id : Nat) :
    List ConceptPlan → Nat → St → St
  | [], _, s => s
  | cp :: rest, i, s =>
    let s1 : St := { s with current_step := s.current_step + 1 }
    let s2 := create_concept_body env module_id cp (i + 1) s1
    concepts_loop env module_id rest (i + 1) s2

/-- One iteration of the module loop of `_create_modules_and_concepts`
(lines 278-312): rename the plan keys, bump the step counter, create the
module row (failure → `continue`), then plan and create its concepts.  The
`plan_concepts` call is NOT inside any try, so its raise propagates. -/
def process_module (env : Env) (req : CoursePublishJobRequest)
    (course_id : Nat) (raw : RawModulePlan) (i : Nat) (s : St) :
    Except Err Unit × St :=
  -- lines 280-285: module_title → title, module_description → description,
  -- then ModulePlan(**module_plan_data)
  let mp : ModulePlan :=
    { title := raw.module_title
      description := some raw.module_description
      concepts := none }
  let s1 : St := { s with current_step := s.current_step + 1 }
  match create_module_entry env course_id mp (i + 1) s1 with
  | (none, s2) => (Except.ok (), s2)
  | (some mid, s2) =>
    let manual := get_manual_concepts req mp.title
    match plan_concepts env manual s2 with
    | (Except.error e, s3) => (Except.error e, s3)
    | (Except.ok cps, s3) =>
      (Except.ok (), concepts_loop env mid cps 0 s3)

/-- The module loop of `_create_modules_and_concepts`: an uncaught raise in
one iteration aborts the whole loop. -/
def modules_loop (env : Env) (req : CoursePublishJobRequest)
    (course_id : Nat) : List RawModulePlan → Nat → St → Except Err Unit × St
  | [], _, s => (Except.ok (), s)
  | raw :: rest, i, s =>
    match process_module env req course_id raw i s with
    | (Except.error e, s') => (Except.error e, s')
    | (Except.ok _, s') => modules_loop env req course_id rest (i + 1) s'

/-- Embeds `_create_modules_and_concepts` (lines 265-312). -/
def create_modules_and_concepts (env : Env) (req : CoursePublishJobRequest)
    (course_id : Nat) (plans : List RawModulePlan) (s : St) :
    Except Err Unit × St :=
  modules_loop env req course_id plans 0 s

/-- Value `num_modules` as computed at publish_course line 122:
`len(job_request.modules) if job_request.modules else job_request.num_modules`
(Python truthiness: a `None` or empty `modules` list falls back to
`num_modules`). -/
def num_modules_of (req : CoursePublishJobRequest) : Nat :=
  if truthyList req.modules then (req.modules.getD []).length
  else req.num_modules

/-- Value `total_steps` as computed once at publish_course lines 124-126. -/
def total_steps_of (req : CoursePublishJobRequest) : Nat :=
  3 + num_modules_of req + num_modules_of req * req.concepts_per_module

/-- Body of `publish_course` after the one-time `self.total_steps`
assignment (lines 136-184): plan (raise propagates via the re-raising
`except` handler), create course (`None` → plain `return`, no raise), then
the module loop (raise propagates). -/
def publish_body (env : Env) (req : CoursePublishJobRequest) (s : St) :
    Except Err Unit × St :=
  let s1 : St := { s with current_step := s.current_step + 1 }
  match plan_course_and_modules env req s1 with
  | (Except.error e, s2) => (Except.error e, s2)
  | (Except.ok plan, s2) =>
    let s3 : St := { s2 with current_step := s2.current_step + 1 }
    match create_course_entry env req plan s3 with
    | (none, s4) => (Except.ok (), s4)
    | (some cid, s4) =>
      match create_modules_and_concepts env req cid plan.module_plans s4 with
      | (Except.error e, s5) => (Except.error e, s5)
      | (Except.ok _, s5) => (Except.ok (), s5)

/-- Embeds `publish_course` (lines 105-184): computes `total_steps` once, then runs
the body; an `Except.error` outcome is the re-raised exception of the
`except` clause (lines 179-184), `Except.ok ()` is a normal return. -/
def publish_course (env : Env) (req : CoursePublishJobRequest) (s : St) :
    Except Err Unit × St :=
  publish_body env req { s with total_steps := total_steps_of req }

/-- Embeds `JobStatus` (schemas.py). -/
inductive JobStatus where
  | pending
  | running
  | completed
  | failed
deriving Repr, DecidableEq

/-- One `job_tracker` entry (courses.py lines 66-77). -/
structure TrackerEntry where
  status : JobStatus
  progress_percentage : Nat
  current_step : String
  total_steps : Nat
  completed_steps : Nat
  course_id : Option Nat
  error_message : Option String
deriving Repr, DecidableEq

/-- The entry written by `publish_course_job` at job submission
(courses.py lines 66-77). -/
def initialTrackerEntry : TrackerEntry :=
  { status := JobStatus.pending
    progress_percentage := 0
    current_step := "Initializing"
    total_steps := 0
    completed_steps := 0
    course_id := none
    error_message := none }

/-- Result of one whole publish job as started by the HTTP route. -/
structure RunResult where
  outcome : Except Err Unit
  finalState : St
  /-- Every value ever assigned to this job's `job_tracker` entry, in
  program order. -/
  trackerHistory : List TrackerEntry
deriving Repr

/-- Initial agent state: empty store, zeroed counters (agent `__init__`). -/
def initSt : St :=
  { db := { courses := [], modules := [], concepts := [] }
    llmCalls := 0, createModuleCalls := 0, createConceptCalls := 0
    getModuleCalls := 0, updateConceptCalls := 0
    current_step := 0, total_steps := 0 }

/-- Embeds `publish_course_job` (courses.py lines 43-91) followed by the queued
background task: the route assigns `job_tracker[job_id]` exactly once (lines
66-77) and queues `agent.publish_course(job_request)` (line 84) with no
further wrapper.  `course_publisher.py` contains no reference to
`job_tracker` (and the agent is never given the route's `job_id`), and no
other code writes to the entry, so the submission-time write is the only
write in the job's lifetime. -/
def run_publish_job (env : Env) (req : CoursePublishJobRequest) : RunResult :=
  let r := publish_course env req initSt
  { outcome := r.1
    finalState := r.2
    trackerHistory := [initialTrackerEntry] }

/-! ### Concrete scenarios -/

/-- Job request of the two-module automated scenario (spec §8): two modules
requested, no manual plan. -/
def req2 : CoursePublishJobRequest :=
  { topic := "programming", level := "beginner"
    num_modules := 2, concepts_per_module := 1 }

/-- Environment for the two-module scenario in which the Content Generator
raises only on the second module's concept-planning call: call 0 (course
plan) and call 1 (module 1's concept plan) succeed, call 2 raises. -/
def env2 : Env :=
  { llm := fun k => if k == 0 then some "PLAN" else
      if k == 1 then some "CONCEPTS1" else none
    parseCoursePlan := fun t =>
      if t == "PLAN" then
        some { course_title := "T", course_description := "D"
               module_plans := [{ module_title := "M1", module_description := "d1" },
                                { module_title := "M2", module_description := "d2" }] }
      else none
    parseConcepts := fun t =>
      if t == "CONCEPTS1" then
        some [{ concept_title := "K1", concept_description := some "kd" }]
      else none
    createCourseOk := true
    createModuleOk := fun _ => true
    createConceptOk := fun _ => true
    getModuleOk := fun _ => true
    updateConceptOk := fun _ => true }

/-- Job request of the minimal automated scenario (spec §8): one module, one
concept, no manual plan. -/
def req3 : CoursePublishJobRequest :=
  { topic := "programming", level := "beginner"
    num_modules := 1, concepts_per_module := 1 }

/-- Environment in which every external call succeeds: one course plan with
one module, one concepts list with one concept, HTML for any further call. -/
def env3 : Env :=
  { llm := fun k => if k == 0 then some "PLAN" else
      if k == 1 then some "CONCEPTS1" else some "<html></html>"
    parseCoursePlan := fun t =>
      if t == "PLAN" then
        some { course_title := "T", course_description := "D"
               module_plans := [{ module_title := "M1", module_description := "d1" }] }
      else none
    parseConcepts := fun t =>
      if t == "CONCEPTS1" then
        some [{ concept_title := "K1", concept_description := some "kd"
                learning_objectives := ["lo"], prerequisites := ["pr"] }]
      else none
    createCourseOk := true
    createModuleOk := fun _ => true
    createConceptOk := fun _ => true
    getModuleOk := fun _ => true
    updateConceptOk := fun _ => true }

/-- Fully manual job request (mirroring the repo's own
`test_publish_course_fully_manual`): course title, one module with title,
description and one manual concept. -/
def req4 : CoursePublishJobRequest :=
  { topic := "programming", level := "intermediate"
    course_title := some "Advanced Python"
    course_description := some "An advanced course."
    modules := some
      [{ title := "Decorators", description := some "All about decorators."
         concepts := some
           [{ title := "Simple Decorators", description := some "A first look." }] }] }

/-- Environment for the fully manual scenario: every store call succeeds and
the Content Generator would return HTML for any call it receives. -/
def env4 : Env :=
  { llm := fun _ => some "<html>content</html>"
    parseCoursePlan := fun _ => none
    parseConcepts := fun _ => none
    createCourseOk := true
    createModuleOk := fun _ => true
    createConceptOk := fun _ => true
    getModuleOk := fun _ => true
    updateConceptOk := fun _ => true }

/-- Environment in which `db_service.create_course` raises and everything
else succeeds. -/
def env5 : Env :=
  { env3 with createCourseOk := false }

/-- Manual job request with two modules and manual concepts for both. -/
def req6 : CoursePublishJobRequest :=
  { topic := "programming", level := "beginner"
    course_title := some "C"
    course_description := some "CD"
    modules := some
      [{ title := "A", description := some "da"
         concepts := some [{ title := "A1" }] },
       { title := "B", description := some "db"
         concepts := some [{ title := "B1" }] }] }

/-- Environment in which the first `create_module` call raises and every
other external call succeeds. -/
def env6 : Env :=
  { env4 with createModuleOk := fun k => !(k == 0) }

/-! ### Plan-normalization over arbitrary dictionaries (for the key-renaming
steps at course_publisher.py lines 280-283 and 399-402).  A JSON dict is
modelled extensionally as a partial map from keys to string values. -/

/-- A JSON-style dictionary with string values. -/
def Dict : Type := String → Option String

/-- Embeds `if src in d: d[tgt] = d.pop(src)` — the value under `src` (when present)
replaces the value under `tgt`, and `src` is removed; when `src` is absent
nothing changes. -/
def renameKey (src tgt : String) (d : Dict) : Dict := fun k =>
  if k = tgt then
    match d src with
    | some v => some v
    | none => d tgt
  else if k = src then none
  else d k

/-- The module-plan normalization of `_create_modules_and_concepts`
(lines 280-283): `module_title → title` then `module_description →
description`. -/
def normalizeModulePlanDict (d : Dict) : Dict :=
  renameKey "module_description" "description"
    (renameKey "module_title" "title" d)

/-- The concept-plan normalization of `_plan_concepts` (lines 399-402):
`concept_title → title` then `concept_description → description`. -/
def normalizeConceptPlanDict (d : Dict) : Dict :=
  renameKey "concept_description" "description"
    (renameKey "concept_title" "title" d)

/-! ### PUT /concepts/{concept_id} (concepts.py lines 81-113, schemas.py
`ConceptUpdate`). -/

/-- A JSON value appearing in an update payload. -/
inductive Val where
  | s (v : String)
  | n (v : Nat)
  | l (v : List String)
deriving Repr, DecidableEq

/-- Pydantic `ConceptUpdate` (schemas.py lines 139-146): the update schema
has exactly these five optional fields and no `content` field; `none` models
an unset field. -/
structure ConceptUpdate where
  title : Option String := none
  description : Option String := none
  order_index : Option Nat := none
  learning_objectives : Option (List String) := none
  prerequisites : Option (List String) := none
deriving Repr, DecidableEq

/-- Embeds `concept_update.model_dump(exclude_unset=True)`: the update dict holds
exactly the set fields, keyed by the schema's field names. -/
def ConceptUpdate.dump (u : ConceptUpdate) : List (String × Val) :=
  (u.title.map fun v => ("title", Val.s v)).toList ++
  (u.description.map fun v => ("description", Val.s v)).toList ++
  (u.order_index.map fun v => ("order_index", Val.n v)).toList ++
  (u.learning_objectives.map fun v => ("learning_objectives", Val.l v)).toList ++
  (u.prerequisites.map fun v => ("prerequisites", Val.l v)).toList

/-- Effect of one key/value of an update dict on a stored concept row
(`db_service.update_concept` applies the dict column-wise). -/
def applyField (r : ConceptRow) (kv : String × Val) : ConceptRow :=
  if kv.1 = "title" then
    match kv.2 with | Val.s v => { r with title := v } | _ => r
  else if kv.1 = "description" then
    match kv.2 with | Val.s v => { r with description := some v } | _ => r
  else if kv.1 = "order_index" then
    match kv.2 with | Val.n v => { r with order_index := v } | _ => r
  else if kv.1 = "learning_objectives" then
    match kv.2 with | Val.l v => { r with learning_objectives := v } | _ => r
  else if kv.1 = "prerequisites" then
    match kv.2 with | Val.l v => { r with prerequisites := v } | _ => r
  else if kv.1 = "content" then
    match kv.2 with | Val.s v => { r with content := v } | _ => r
  else r

/-- Embeds `db_service.update_concept(concept_id, update_data)` on the stored row. -/
def db_update_concept (r : ConceptRow) (upd : List (String × Val)) :
    ConceptRow :=
  upd.foldl applyField r

/-- The `update_concept` route (concepts.py lines 81-113): 404 when the
concept does not exist, 400 when the dumped update dict is empty, otherwise
`update_data.pop("content", None)` followed by the store update. -/
def update_concept_route (stored : Option ConceptRow) (u : ConceptUpdate) :
    Except Nat ConceptRow :=
  match stored with
  | none => Except.error 404
  | some r =>
    let update_data := u.dump
    if update_data.isEmpty then Except.error 400
    else
      let update_data := update_data.filter (fun kv => !(kv.1 == "content"))
      Except.ok (db_update_concept r update_data)

/-! ### Helper states and invariants used by the theorems. -/

/-- The agent state at the moment `_plan_course_and_modules` is entered when
a job is run from `initSt`: `total_steps` assigned once, `current_step`
already bumped to 1 for the planning step. -/
def stPlanPoint (req : CoursePublishJobRequest) : St :=
  { initSt with total_steps := total_steps_of req, current_step := 1 }

/-- The second raw module plan of the two-module scenario. -/
def rawM2 : RawModulePlan := { module_title := "M2", module_description := "d2" }

/-- The agent state of the two-module scenario just before module 2 is
processed (course, module 1 and its one concept created; LLM calls 0 and 1
consumed). -/
def stMid2 : St :=
  { db :=
      { courses := [{ id := 0, title := "T", description := "D"
                      topic := "programming", level := "beginner" }]
        modules := [{ id := 0, course_id := 0, title := "M1"
                      description := some "d1", order_index := 1 }]
        concepts := [{ id := 0, module_id := 0, title := "K1"
                       description := some "kd", order_index := 1
                       learning_objectives := [], prerequisites := []
                       content := "" }] }
    llmCalls := 2, createModuleCalls := 1, createConceptCalls := 1
    getModuleCalls := 1, updateConceptCalls := 0
    current_step := 4, total_steps := 7 }

/-- The state produced by the failing processing of module 2 in the
two-module scenario. -/
def stFail2 : St := (process_module env2 req2 0 rawM2 1 stMid2).2

/-- The `order_index` column of the `modules` table, in creation order. -/
def modOrders (db : DB) : List Nat := db.modules.map fun m => m.order_index

/-- The `order_index` column of the concepts of one module, in creation
order. -/
def cOrders (db : DB) (mid : Nat) : List Nat :=
  (db.concepts.filter fun c => c.module_id == mid).map fun c => c.order_index

/-- Store invariant about concepts: per-module `order_index` columns are
strictly increasing, 1-based, and every concept points at an allocated
module id (module ids are allocated as consecutive row counts). -/
def ConceptInv (db : DB) : Prop :=
  (∀ mid, (cOrders db mid).Pairwise (· < ·)) ∧
  (∀ c ∈ db.concepts, 1 ≤ c.order_index) ∧
  (∀ c ∈ db.concepts, c.module_id < db.modules.length)

/-- Store invariant about modules, with an upper bound tracking the module
loop index: the `order_index` column is strictly increasing, 1-based and
bounded. -/
def ModuleInv (db : DB) (bound : Nat) : Prop :=
  (modOrders db).Pairwise (· < ·) ∧
  (∀ m ∈ db.modules, 1 ≤ m.order_index ∧ m.order_index ≤ bound)

/-- A concrete stored concept row used to witness the update-route theorem. -/
def row0 : ConceptRow :=
  { id := 7, module_id := 3, title := "Old", description := some "od"
    order_index := 2, learning_objectives := ["a"], prerequisites := ["b"]
    content := "<p>keep me</p>" }

/-- A concrete update payload setting only the title. -/
def upd0 : ConceptUpdate := { title := some "New" }

/-! ### Preservation lemmas for the embedded pipeline functions. -/

theorem generate_content_db (env : Env) (s : St) :
    (generate_content env s).2.db = s.db := by
  unfold generate_content
  cases env.llm s.llmCalls <;> rfl

theorem generate_content_total_steps (env : Env) (s : St) :
    (generate_content env s).2.total_steps = s.total_steps := by
  unfold generate_content
  cases env.llm s.llmCalls <;> rfl

theorem generate_content_counters (env : Env) (s : St) :
    (generate_content env s).2.createModuleCalls = s.createModuleCalls ∧
    (generate_content env s).2.createConceptCalls = s.createConceptCalls := by
  unfold generate_content
  cases env.llm s.llmCalls <;> exact ⟨rfl, rfl⟩

theorem plan_course_and_modules_db (env : Env) (req : CoursePublishJobRequest)
    (s : St) : (plan_course_and_modules env req s).2.db = s.db := by
  unfold plan_course_and_modules
  split
  · rfl
  · split
    · rename_i e s2 heq
      have h2 := generate_content_db env s
      rw [heq] at h2
      simpa using h2
    · rename_i txt s2 heq
      have h2 := generate_content_db env s
      rw [heq] at h2
      split <;> simpa using h2

theorem plan_course_and_modules_total_steps (env : Env)
    (req : CoursePublishJobRequest) (s : St) :
    (plan_course_and_modules env req s).2.total_steps = s.total_steps := by
  unfold plan_course_and_modules
  split
  · rfl
  · split
    · rename_i e s2 heq
      have h2 := generate_content_total_steps env s
      rw [heq] at h2
      simpa using h2
    · rename_i txt s2 heq
      have h2 := generate_content_total_steps env s
      rw [heq] at h2
      split <;> simpa using h2

theorem plan_course_and_modules_counters (env : Env)
    (req : CoursePublishJobRequest) (s : St) :
    (plan_course_and_modules env req s).2.createModuleCalls
        = s.createModuleCalls ∧
    (plan_course_and_modules env req s).2.createConceptCalls
        = s.createConceptCalls := by
  unfold plan_course_and_modules
  split
  · exact ⟨rfl, rfl⟩
  · split
    · rename_i e s2 heq
      have h2 := generate_content_counters env s
      rw [heq] at h2
      simpa using h2
    · rename_i txt s2 heq
      have h2 := generate_content_counters env s
      rw [heq] at h2
      split <;> simpa using h2

theorem create_course_entry_spec (env : Env) (req : CoursePublishJobRequest)
    (plan : CoursePlan) (s : St) :
    (create_course_entry env req plan s).2.db.modules = s.db.modules ∧
    (create_course_entry env req plan s).2.db.concepts = s.db.concepts ∧
    (create_course_entry env req plan s).2.createModuleCalls
        = s.createModuleCalls ∧
    (create_course_entry env req plan s).2.createConceptCalls
        = s.createConceptCalls ∧
    (create_course_entry env req plan s).2.total_steps = s.total_steps := by
  unfold create_course_entry
  split <;> exact ⟨rfl, rfl, rfl, rfl, rfl⟩

theorem create_module_entry_total_steps (env : Env) (cid : Nat)
    (mp : ModulePlan) (oi : Nat) (s : St) :
    (create_module_entry env cid mp oi s).2.total_steps = s.total_steps := by
  unfold create_module_entry
  dsimp only
  split <;> rfl

theorem create_concept_body_total_steps (env : Env) (mid : Nat)
    (cp : ConceptPlan) (oi : Nat) (s : St) :
    (create_concept_body env mid cp oi s).total_steps = s.total_steps := by
  unfold create_concept_body
  simp only [generate_concept_prompt_call]
  split
  · split <;> rfl
  · rfl

theorem concepts_loop_total_steps (env : Env) (mid : Nat)
    (cps : List ConceptPlan) :
    ∀ (i : Nat) (s : St),
      (concepts_loop env mid cps i s).total_steps = s.total_steps := by
  induction cps with
  | nil => intro i s; rfl
  | cons cp rest ih =>
    intro i s
    show (concepts_loop env mid rest (i + 1)
        (create_concept_body env mid cp (i + 1)
          { s with current_step := s.current_step + 1 })).total_steps
      = s.total_steps
    rw [ih]
    exact create_concept_body_total_steps env mid cp (i + 1) _

theorem plan_concepts_db (env : Env) (mc : Option (List ConceptPlan))
    (s : St) : (plan_concepts env mc s).2.db = s.db := by
  unfold plan_concepts
  split
  · rfl
  · split
    · rename_i e s2 heq
      have h2 := generate_content_db env s
      rw [heq] at h2
      simpa using h2
    · rename_i txt s2 heq
      have h2 := generate_content_db env s
      rw [heq] at h2
      split <;> simpa using h2

theorem plan_concepts_total_steps (env : Env)
    (mc : Option (List ConceptPlan)) (s : St) :
    (plan_concepts env mc s).2.total_steps = s.total_steps := by
  unfold plan_concepts
  split
  · rfl
  · split
    · rename_i e s2 heq
      have h2 := generate_content_total_steps env s
      rw [heq] at h2
      simpa using h2
    · rename_i txt s2 heq
      have h2 := generate_content_total_steps env s
      rw [heq] at h2
      split <;> simpa using h2

theorem process_module_total_steps (env : Env)
    (req : CoursePublishJobRequest) (cid : Nat) (raw : RawModulePlan)
    (i : Nat) (s : St) :
    (process_module env req cid raw i s).2.total_steps = s.total_steps := by
  unfold process_module
  dsimp only
  split
  · rename_i s2 heq
    have h1 := create_module_entry_total_steps env cid
      { title := raw.module_title, description := some raw.module_description
        concepts := none } (i + 1) { s with current_step := s.current_step + 1 }
    rw [heq] at h1
    simpa using h1
  · rename_i mid s2 heq
    have h1 := create_module_entry_total_steps env cid
      { title := raw.module_title, description := some raw.module_description
        concepts := none } (i + 1) { s with current_step := s.current_step + 1 }
    rw [heq] at h1
    simp at h1
    split
    · rename_i e s3 heq2
      have h2 := plan_concepts_total_steps env
        (get_manual_concepts req raw.module_title) s2
      rw [heq2] at h2
      simp at h2
      simp [h2, h1]
    · rename_i cps s3 heq2
      have h2 := plan_concepts_total_steps env
        (get_manual_concepts req raw.module_title) s2
      rw [heq2] at h2
      simp at h2
      simp [concepts_loop_total_steps, h2, h1]

theorem modules_loop_total_steps (env : Env)
    (req : CoursePublishJobRequest) (cid : Nat)
    (plans : List RawModulePlan) :
    ∀ (i : Nat) (s : St),
      (modules_loop env req cid plans i s).2.total_steps = s.total_steps := by
  induction plans with
  | nil => intro i s; rfl
  | cons raw rest ih =>
    intro i s
    unfold modules_loop
    split
    · rename_i e s2 heq
      have h1 := process_module_total_steps env req cid raw i s
      rw [heq] at h1
      simpa using h1
    · rename_i u s2 heq
      have h1 := process_module_total_steps env req cid raw i s
      rw [heq] at h1
      simp at h1
      simp [ih, h1]

theorem publish_body_total_steps (env : Env)
    (req : CoursePublishJobRequest) (s : St) :
    (publish_body env req s).2.total_steps = s.total_steps := by
  unfold publish_body
  dsimp only
  split
  · rename_i e s2 heq
    have h1 := plan_course_and_modules_total_steps env req
      { s with current_step := s.current_step + 1 }
    rw [heq] at h1
    simpa using h1
  · rename_i p s2 heq
    have h1 := plan_course_and_modules_total_steps env req
      { s with current_step := s.current_step + 1 }
    rw [heq] at h1
    simp at h1
    split
    · rename_i s4 heq2
      have h2 := (create_course_entry_spec env req p
        { s2 with current_step := s2.current_step + 1 }).2.2.2.2
      rw [heq2] at h2
      simp at h2
      simp [h2, h1]
    · rename_i cid s4 heq2
      have h2 := (create_course_entry_spec env req p
        { s2 with current_step := s2.current_step + 1 }).2.2.2.2
      rw [heq2] at h2
      simp at h2
      split
      · rename_i e s5 heq3
        have h3 := modules_loop_total_steps env req cid p.module_plans 0 s4
        rw [show create_modules_and_concepts env req cid p.module_plans s4
            = modules_loop env req cid p.module_plans 0 s4 from rfl] at heq3
        rw [heq3] at h3
        simp at h3
        simp [h3, h2, h1]
      · rename_i u s5 heq3
        have h3 := modules_loop_total_steps env req cid p.module_plans 0 s4
        rw [show create_modules_and_concepts env req cid p.module_plans s4
            = modules_loop env req cid p.module_plans 0 s4 from rfl] at heq3
        rw [heq3] at h3
        simp at h3
        simp [h3, h2, h1]

theorem publish_body_plan_error (env : Env) (req : CoursePublishJobRequest)
    (s : St) (e : Err) (s' : St)
    (h : plan_course_and_modules env req
        { s with current_step := s.current_step + 1 } = (Except.error e, s')) :
    publish_body env req s = (Except.error e, s') := by
  unfold publish_body
  dsimp only
  split
  · rename_i e2 s2 heq
    have h3 := h.symm.trans heq
    simp only [Prod.mk.injEq, Except.error.injEq] at h3
    rw [h3.1, h3.2]
  · rename_i p s2 heq
    have h3 := h.symm.trans heq
    simp at h3

theorem publish_body_course_fail (env : Env) (req : CoursePublishJobRequest)
    (s : St) (p : CoursePlan) (s' : St)
    (hplan : plan_course_and_modules env req
        { s with current_step := s.current_step + 1 } = (Except.ok p, s'))
    (hc : env.createCourseOk = false) :
    publish_body env req s
      = (Except.ok (), { s' with current_step := s'.current_step + 1 }) := by
  unfold publish_body
  dsimp only
  split
  · rename_i e2 s2 heq
    have h3 := hplan.symm.trans heq
    simp at h3
  · rename_i p2 s2 heq
    have h3 := hplan.symm.trans heq
    simp only [Prod.mk.injEq, Except.ok.injEq] at h3
    obtain ⟨hp, hs⟩ := h3
    subst hp
    subst hs
    split
    · rename_i s4 heq2
      have h4 : create_course_entry env req p
          { s' with current_step := s'.current_step + 1 }
          = (none, { s' with current_step := s'.current_step + 1 }) := by
        unfold create_course_entry
        rw [hc]
        simp
      have h5 := h4.symm.trans heq2
      simp only [Prod.mk.injEq] at h5
      rw [← h5.2]
    · rename_i cid s4 heq2
      have h4 : create_course_entry env req p
          { s' with current_step := s'.current_step + 1 }
          = (none, { s' with current_step := s'.current_step + 1 }) := by
        unfold create_course_entry
        rw [hc]
        simp
      have h5 := h4.symm.trans heq2
      simp at h5

theorem publish_body_course_fail_state (env : Env)
    (req : CoursePublishJobRequest) (s : St)
    (hc : env.createCourseOk = false) :
    (publish_body env req s).2.db.modules = s.db.modules ∧
    (publish_body env req s).2.db.concepts = s.db.concepts ∧
    (publish_body env req s).2.createModuleCalls = s.createModuleCalls ∧
    (publish_body env req s).2.createConceptCalls = s.createConceptCalls := by
  unfold publish_body
  dsimp only
  split
  · rename_i e s2 heq
    have h2 := plan_course_and_modules_db env req
      { s with current_step := s.current_step + 1 }
    have h3 := plan_course_and_modules_counters env req
      { s with current_step := s.current_step + 1 }
    rw [heq] at h2 h3
    simp at h2 h3
    simp [h2, h3]
  · rename_i p s2 heq
    have h2 := plan_course_and_modules_db env req
      { s with current_step := s.current_step + 1 }
    have h3 := plan_course_and_modules_counters env req
      { s with current_step := s.current_step + 1 }
    rw [heq] at h2 h3
    simp at h2 h3
    split
    · rename_i s4 heq2
      have h4 : create_course_entry env req p
          { s2 with current_step := s2.current_step + 1 }
          = (none, { s2 with current_step := s2.current_step + 1 }) := by
        unfold create_course_entry
        rw [hc]
        simp
      have h5 := h4.symm.trans heq2
      simp only [Prod.mk.injEq] at h5
      rw [← h5.2]
      simp [h2, h3]
    · rename_i cid s4 heq2
      have h4 : create_course_entry env req p
          { s2 with current_step := s2.current_step + 1 }
          = (none, { s2 with current_step := s2.current_step + 1 }) := by
        unfold create_course_entry
        rw [hc]
        simp
      have h5 := h4.symm.trans heq2
      simp at h5

theorem create_module_entry_spec (env : Env) (cid : Nat) (mp : ModulePlan)
    (oi : Nat) (s : St) :
    (create_module_entry env cid mp oi s).2.db.concepts = s.db.concepts ∧
    (((create_module_entry env cid mp oi s).1 = none ∧
      (create_module_entry env cid mp oi s).2.db.modules = s.db.modules) ∨
     ((create_module_entry env cid mp oi s).1 = some s.db.modules.length ∧
      ∃ row : ModuleRow, row.order_index = oi ∧ row.id = s.db.modules.length ∧
        (create_module_entry env cid mp oi s).2.db.modules
          = s.db.modules ++ [row])) := by
  unfold create_module_entry
  dsimp only
  split
  · exact ⟨rfl, Or.inr ⟨rfl, ⟨_, rfl, rfl, rfl⟩⟩⟩
  · exact ⟨rfl, Or.inl ⟨rfl, rfl⟩⟩

theorem create_concept_body_spec (env : Env) (mid : Nat) (cp : ConceptPlan)
    (oi : Nat) (s : St) :
    (create_concept_body env mid cp oi s).db.modules = s.db.modules ∧
    ((create_concept_body env mid cp oi s).db.concepts = s.db.concepts ∨
     ∃ row : ConceptRow, row.module_id = mid ∧ row.order_index = oi ∧
       (create_concept_body env mid cp oi s).db.concepts
         = s.db.concepts ++ [row]) := by
  unfold create_concept_body
  simp only [generate_concept_prompt_call]
  split
  · split
    · exact ⟨rfl, Or.inr ⟨_, rfl, rfl, rfl⟩⟩
    · exact ⟨rfl, Or.inr ⟨_, rfl, rfl, rfl⟩⟩
  · exact ⟨rfl, Or.inl rfl⟩

theorem modOrders_of_modules_eq (db db' : DB)
    (h : db'.modules = db.modules) : modOrders db' = modOrders db := by
  unfold modOrders
  rw [h]

theorem cOrders_of_concepts_eq (db db' : DB)
    (h : db'.concepts = db.concepts) (mid : Nat) :
    cOrders db' mid = cOrders db mid := by
  unfold cOrders
  rw [h]

theorem ModuleInv_of_modules_eq (db db' : DB) (b : Nat)
    (h : db'.modules = db.modules) (hinv : ModuleInv db b) :
    ModuleInv db' b := by
  obtain ⟨h1, h2⟩ := hinv
  refine ⟨?_, ?_⟩
  · rw [modOrders_of_modules_eq db db' h]
    exact h1
  · rw [h]
    exact h2

theorem ModuleInv_mono (db : DB) (b b' : Nat) (hb : b ≤ b')
    (hinv : ModuleInv db b) : ModuleInv db b' := by
  obtain ⟨h1, h2⟩ := hinv
  exact ⟨h1, fun m hm => ⟨(h2 m hm).1, Nat.le_trans (h2 m hm).2 hb⟩⟩

theorem ConceptInv_of_eq (db db' : DB)
    (hcon : db'.concepts = db.concepts)
    (hlen : db.modules.length ≤ db'.modules.length)
    (hinv : ConceptInv db) : ConceptInv db' := by
  obtain ⟨h1, h2, h3⟩ := hinv
  refine ⟨?_, ?_, ?_⟩
  · intro mid
    rw [cOrders_of_concepts_eq db db' hcon]
    exact h1 mid
  · rw [hcon]
    exact h2
  · rw [hcon]
    exact fun c hc => Nat.lt_of_lt_of_le (h3 c hc) hlen

theorem cOrders_append_self (db db' : DB) (row : ConceptRow)
    (h : db'.concepts = db.concepts ++ [row]) :
    cOrders db' row.module_id = cOrders db row.module_id
      ++ [row.order_index] := by
  unfold cOrders
  rw [h, List.filter_append]
  simp

theorem cOrders_append_other (db db' : DB) (row : ConceptRow) (mid : Nat)
    (h : db'.concepts = db.concepts ++ [row]) (hne : row.module_id ≠ mid) :
    cOrders db' mid = cOrders db mid := by
  unfold cOrders
  rw [h, List.filter_append]
  simp [hne]

theorem ConceptInv_append (db db' : DB) (row : ConceptRow)
    (hmods : db'.modules = db.modules)
    (hcon : db'.concepts = db.concepts ++ [row])
    (hinv : ConceptInv db)
    (hrow1 : 1 ≤ row.order_index)
    (hrow2 : row.module_id < db.modules.length)
    (hbound : ∀ o ∈ cOrders db row.module_id, o < row.order_index) :
    ConceptInv db' := by
  obtain ⟨h1, h2, h3⟩ := hinv
  refine ⟨?_, ?_, ?_⟩
  · intro mid
    by_cases hm : row.module_id = mid
    · subst hm
      rw [cOrders_append_self db db' row hcon]
      rw [List.pairwise_append]
      refine ⟨h1 row.module_id, List.pairwise_singleton _ _, ?_⟩
      intro a ha b hb
      rw [List.mem_singleton] at hb
      subst hb
      exact hbound a ha
    · rw [cOrders_append_other db db' row mid hcon hm]
      exact h1 mid
  · rw [hcon]
    intro c hc
    rcases List.mem_append.mp hc with h | h
    · exact h2 c h
    · rw [List.mem_singleton] at h
      subst h
      exact hrow1
  · rw [hcon, hmods]
    intro c hc
    rcases List.mem_append.mp hc with h | h
    · exact h3 c h
    · rw [List.mem_singleton] at h
      subst h
      exact hrow2

theorem cOrders_nil_of_fresh (db : DB) (mid : Nat)
    (h : ∀ c ∈ db.concepts, c.module_id < mid) : cOrders db mid = [] := by
  unfold cOrders
  have hf : db.concepts.filter (fun c => c.module_id == mid) = [] := by
    rw [List.filter_eq_nil_iff]
    intro c hc
    simp only [beq_iff_eq]
    exact Nat.ne_of_lt (h c hc)
  rw [hf]
  rfl

theorem ModuleInv_append (db db' : DB) (row : ModuleRow) (i : Nat)
    (hmods : db'.modules = db.modules ++ [row])
    (hrow : row.order_index = i + 1)
    (hinv : ModuleInv db i) : ModuleInv db' (i + 1) := by
  obtain ⟨h1, h2⟩ := hinv
  constructor
  · have : modOrders db' = modOrders db ++ [row.order_index] := by
      unfold modOrders
      rw [hmods]
      simp
    rw [this, List.pairwise_append]
    refine ⟨h1, List.pairwise_singleton _ _, ?_⟩
    intro a ha b hb
    rw [List.mem_singleton] at hb
    subst hb
    rw [hrow]
    unfold modOrders at ha
    rcases List.mem_map.mp ha with ⟨m, hm, rfl⟩
    exact Nat.lt_succ_of_le (h2 m hm).2
  · rw [hmods]
    intro m hm
    rcases List.mem_append.mp hm with h | h
    · exact ⟨(h2 m h).1, Nat.le_succ_of_le (h2 m h).2⟩
    · rw [List.mem_singleton] at h
      subst h
      rw [hrow]
      exact ⟨Nat.succ_le_succ (Nat.zero_le i), Nat.le_refl _⟩

theorem concepts_loop_inv (env : Env) (mid : Nat)
    (cps : List ConceptPlan) :
    ∀ (j : Nat) (s : St),
      ConceptInv s.db →
      mid < s.db.modules.length →
      (∀ o ∈ cOrders s.db mid, o ≤ j) →
      (concepts_loop env mid cps j s).db.modules = s.db.modules ∧
      ConceptInv (concepts_loop env mid cps j s).db := by
  induction cps with
  | nil => exact fun j s hinv _ _ => ⟨rfl, hinv⟩
  | cons cp rest ih =>
    intro j s hinv hmid hbound
    show (concepts_loop env mid rest (j + 1)
        (create_concept_body env mid cp (j + 1)
          { s with current_step := s.current_step + 1 })).db.modules
        = s.db.modules ∧ _
    set s1 : St := { s with current_step := s.current_step + 1 } with hs1
    have hs1db : s1.db = s.db := rfl
    obtain ⟨hmods, hcon⟩ := create_concept_body_spec env mid cp (j + 1) s1
    set s2 : St := create_concept_body env mid cp (j + 1) s1 with hs2
    have hmods2 : s2.db.modules = s.db.modules := by rw [hmods]
    have hinv2 : ConceptInv s2.db ∧ ∀ o ∈ cOrders s2.db mid, o ≤ j + 1 := by
      rcases hcon with h | ⟨row, hrmid, hroi, happ⟩
      · constructor
        · exact ConceptInv_of_eq s.db s2.db (by rw [h])
            (by rw [hmods2]) hinv
        · intro o ho
          rw [cOrders_of_concepts_eq s.db s2.db (by rw [h]) mid] at ho
          exact Nat.le_succ_of_le (hbound o ho)
      · have happ' : s2.db.concepts = s.db.concepts ++ [row] := by
          rw [happ]
        constructor
        · refine ConceptInv_append s.db s2.db row hmods2 happ' hinv ?_ ?_ ?_
          · rw [hroi]
            exact Nat.succ_le_succ (Nat.zero_le j)
          · rw [hrmid]
            exact hmid
          · intro o ho
            rw [hrmid] at ho
            rw [hroi]
            exact Nat.lt_succ_of_le (hbound o ho)
        · intro o ho
          have := cOrders_append_self s.db s2.db row happ'
          rw [hrmid] at this
          rw [this] at ho
          rcases List.mem_append.mp ho with h | h
          · exact Nat.le_succ_of_le (hbound o h)
          · rw [List.mem_singleton] at h
            subst h
            rw [hroi]
    have hmid2 : mid < s2.db.modules.length := by
      rw [hmods2]
      exact hmid
    obtain ⟨ihmods, ihinv⟩ := ih (j + 1) s2 hinv2.1 hmid2 hinv2.2
    exact ⟨by rw [ihmods, hmods2], ihinv⟩

theorem process_module_inv (env : Env) (req : CoursePublishJobRequest)
    (cid : Nat) (raw : RawModulePlan) (i : Nat) (s : St)
    (hm : ModuleInv s.db i) (hc : ConceptInv s.db) :
    ModuleInv (process_module env req cid raw i s).2.db (i + 1) ∧
    ConceptInv (process_module env req cid raw i s).2.db := by
  unfold process_module
  dsimp only
  split
  · rename_i s2 heq
    obtain ⟨hcon, hdisj⟩ := create_module_entry_spec env cid
      { title := raw.module_title, description := some raw.module_description
        concepts := none } (i + 1) { s with current_step := s.current_step + 1 }
    rw [heq] at hcon hdisj
    simp only at hcon hdisj
    rcases hdisj with ⟨_, hmods⟩ | ⟨hsome, _⟩
    · refine ⟨?_, ?_⟩
      · exact ModuleInv_mono _ i (i + 1) (Nat.le_succ i)
          (ModuleInv_of_modules_eq s.db s2.db i hmods hm)
      · exact ConceptInv_of_eq s.db s2.db hcon (by rw [hmods]) hc
    · simp at hsome
  · rename_i mid s2 heq
    obtain ⟨hcon, hdisj⟩ := create_module_entry_spec env cid
      { title := raw.module_title, description := some raw.module_description
        concepts := none } (i + 1) { s with current_step := s.current_step + 1 }
    rw [heq] at hcon hdisj
    simp only at hcon hdisj
    rcases hdisj with ⟨hnone, _⟩ | ⟨hsome, row, hroi, hrid, hmods⟩
    · simp at hnone
    · simp only [Option.some.injEq] at hsome
      -- mid is the module-row count before the insert
      have hmid : mid = s.db.modules.length := hsome
      have hm2 : ModuleInv s2.db (i + 1) :=
        ModuleInv_append s.db s2.db row i hmods hroi hm
      have hc2 : ConceptInv s2.db :=
        ConceptInv_of_eq s.db s2.db hcon
          (by rw [hmods]; simp [Nat.le_succ]) hc
      have hfresh : ∀ c ∈ s2.db.concepts, c.module_id < mid := by
        rw [hcon, hmid]
        exact hc.2.2
      split
      · rename_i e s3 heq2
        have hdb3 := plan_concepts_db env
          (get_manual_concepts req raw.module_title) s2
        rw [heq2] at hdb3
        simp only at hdb3
        exact ⟨ModuleInv_of_modules_eq s2.db s3.db (i + 1) (by rw [hdb3]) hm2,
          ConceptInv_of_eq s2.db s3.db (by rw [hdb3]) (by rw [hdb3]) hc2⟩
      · rename_i cps s3 heq2
        have hdb3 := plan_concepts_db env
          (get_manual_concepts req raw.module_title) s2
        rw [heq2] at hdb3
        simp only at hdb3
        have hc3 : ConceptInv s3.db :=
          ConceptInv_of_eq s2.db s3.db (by rw [hdb3]) (by rw [hdb3]) hc2
        have hmid3 : mid < s3.db.modules.length := by
          rw [hdb3, hmods, hmid]
          simp
        have hzero : ∀ o ∈ cOrders s3.db mid, o ≤ 0 := by
          have : cOrders s3.db mid = [] := by
            apply cOrders_nil_of_fresh
            rw [hdb3]
            exact hfresh
          rw [this]
          intro o ho
          simp at ho
        obtain ⟨hmods4, hinv4⟩ :=
          concepts_loop_inv env mid cps 0 s3 hc3 hmid3 hzero
        refine ⟨?_, hinv4⟩
        exact ModuleInv_of_modules_eq s3.db _ (i + 1) hmods4
          (ModuleInv_of_modules_eq s2.db s3.db (i + 1) (by rw [hdb3]) hm2)

theorem modules_loop_inv (env : Env) (req : CoursePublishJobRequest)
    (cid : Nat) (plans : List RawModulePlan) :
    ∀ (i : Nat) (s : St), ModuleInv s.db i → ConceptInv s.db →
      ModuleInv (modules_loop env req cid plans i s).2.db
        (i + plans.length) ∧
      ConceptInv (modules_loop env req cid plans i s).2.db := by
  induction plans with
  | nil => exact fun i s hm hc => ⟨by simpa using hm, hc⟩
  | cons raw rest ih =>
    intro i s hm hc
    unfold modules_loop
    split
    · rename_i e s2 heq
      obtain ⟨hm2, hc2⟩ := process_module_inv env req cid raw i s hm hc
      rw [heq] at hm2 hc2
      simp only at hm2 hc2
      refine ⟨ModuleInv_mono _ (i + 1) _ ?_ hm2, hc2⟩
      simp
    · rename_i u s2 heq
      obtain ⟨hm2, hc2⟩ := process_module_inv env req cid raw i s hm hc
      rw [heq] at hm2 hc2
      simp only at hm2 hc2
      obtain ⟨hm3, hc3⟩ := ih (i + 1) s2 hm2 hc2
      refine ⟨?_, hc3⟩
      have : i + 1 + rest.length = i + (raw :: rest).length := by
        simp
        omega
      rw [this] at hm3
      exact hm3

theorem publish_body_inv (env : Env) (req : CoursePublishJobRequest)
    (s : St) (hm : ModuleInv s.db 0) (hc : ConceptInv s.db) :
    (∃ b, ModuleInv (publish_body env req s).2.db b) ∧
    ConceptInv (publish_body env req s).2.db := by
  unfold publish_body
  dsimp only
  split
  · rename_i e s2 heq
    have h2 := plan_course_and_modules_db env req
      { s with current_step := s.current_step + 1 }
    rw [heq] at h2
    simp only at h2
    refine ⟨⟨0, ModuleInv_of_modules_eq s.db s2.db 0 (by rw [h2]) hm⟩, ?_⟩
    exact ConceptInv_of_eq s.db s2.db (by rw [h2]) (by rw [h2]) hc
  · rename_i p s2 heq
    have h2 := plan_course_and_modules_db env req
      { s with current_step := s.current_step + 1 }
    rw [heq] at h2
    simp only at h2
    have hm2 : ModuleInv s2.db 0 :=
      ModuleInv_of_modules_eq s.db s2.db 0 (by rw [h2]) hm
    have hc2 : ConceptInv s2.db :=
      ConceptInv_of_eq s.db s2.db (by rw [h2]) (by rw [h2]) hc
    split
    · rename_i s4 heq2
      obtain ⟨hmods, hcons, _⟩ := create_course_entry_spec env req p
        { s2 with current_step := s2.current_step + 1 }
      rw [heq2] at hmods hcons
      simp only at hmods hcons
      refine ⟨⟨0, ModuleInv_of_modules_eq s2.db s4.db 0 (by rw [hmods]) hm2⟩, ?_⟩
      exact ConceptInv_of_eq s2.db s4.db (by rw [hcons]) (by rw [hmods]) hc2
    · rename_i cid s4 heq2
      obtain ⟨hmods, hcons, _⟩ := create_course_entry_spec env req p
        { s2 with current_step := s2.current_step + 1 }
      rw [heq2] at hmods hcons
      simp only at hmods hcons
      have hm4 : ModuleInv s4.db 0 :=
        ModuleInv_of_modules_eq s2.db s4.db 0 (by rw [hmods]) hm2
      have hc4 : ConceptInv s4.db :=
        ConceptInv_of_eq s2.db s4.db (by rw [hcons]) (by rw [hmods]) hc2
      obtain ⟨hm5, hc5⟩ :=
        modules_loop_inv env req cid p.module_plans 0 s4 hm4 hc4
      split
      · rename_i e s5 heq3
        rw [show create_modules_and_concepts env req cid p.module_plans s4
            = modules_loop env req cid p.module_plans 0 s4 from rfl] at heq3
        rw [heq3] at hm5 hc5
        exact ⟨⟨0 + p.module_plans.length, hm5⟩, hc5⟩
      · rename_i u s5 heq3
        rw [show create_modules_and_concepts env req cid p.module_plans s4
            = modules_loop env req cid p.module_plans 0 s4 from rfl] at heq3
        rw [heq3] at hm5 hc5
        exact ⟨⟨0 + p.module_plans.length, hm5⟩, hc5⟩

theorem renameKey_src_none (src tgt : String) (h : src ≠ tgt) (d : Dict) :
    renameKey src tgt d src = none := by
  unfold renameKey
  rw [if_neg h, if_pos rfl]

theorem renameKey_other (src tgt : String) (d : Dict) (k : String)
    (h1 : k ≠ tgt) (h2 : k ≠ src) : renameKey src tgt d k = d k := by
  unfold renameKey
  rw [if_neg h1, if_neg h2]

theorem renameKey_tgt (src tgt : String) (d : Dict) :
    renameKey src tgt d tgt
      = match d src with | some v => some v | none => d tgt := by
  unfold renameKey
  rw [if_pos rfl]

theorem renameTwoKeys_idem (s1 t1 s2 t2 : String) (d : Dict)
    (h11 : s1 ≠ t1) (h22 : s2 ≠ t2) (h12 : s1 ≠ s2) (h1t : s1 ≠ t2)
    (h2t : s2 ≠ t1) (htt : t1 ≠ t2) :
    renameKey s2 t2 (renameKey s1 t1 (renameKey s2 t2 (renameKey s1 t1 d)))
      = renameKey s2 t2 (renameKey s1 t1 d) := by
  funext k
  set A := renameKey s1 t1 d with hA
  set B := renameKey s2 t2 A with hB
  set C := renameKey s1 t1 B with hC
  by_cases hk1 : k = t2
  · rw [hk1]
    rw [hC, hB]
    rw [renameKey_tgt s2 t2 (renameKey s1 t1 B)]
    rw [renameKey_other s1 t1 B s2 h2t h12.symm]
    rw [hB, renameKey_src_none s2 t2 h22]
    rw [renameKey_other s1 t1 B t2 htt.symm h1t.symm]
  · by_cases hk2 : k = s2
    · rw [hk2]
      rw [renameKey_src_none s2 t2 h22]
      rw [hB, renameKey_src_none s2 t2 h22]
    · rw [renameKey_other s2 t2 C k hk1 hk2]
      by_cases hk3 : k = t1
      · rw [hk3]
        rw [hC, renameKey_tgt s1 t1 B]
        rw [hB, renameKey_other s2 t2 A s1 h1t h12]
        rw [hA, renameKey_src_none s1 t1 h11]
      · by_cases hk4 : k = s1
        · rw [hk4]
          rw [hC, renameKey_src_none s1 t1 h11]
          rw [hB, renameKey_other s2 t2 A s1 h1t h12]
          rw [hA, renameKey_src_none s1 t1 h11]
        · rw [hC, renameKey_other s1 t1 B k hk3 hk4]

theorem applyField_id_module (r : ConceptRow) (kv : String × Val) :
    (applyField r kv).id = r.id ∧ (applyField r kv).module_id = r.module_id := by
  unfold applyField
  repeat' split
  all_goals exact ⟨rfl, rfl⟩

theorem applyField_content (r : ConceptRow) (kv : String × Val)
    (h : kv.1 ≠ "content") : (applyField r kv).content = r.content := by
  unfold applyField
  repeat' split
  all_goals rfl

theorem db_update_concept_id_module (r : ConceptRow)
    (upd : List (String × Val)) :
    (db_update_concept r upd).id = r.id ∧
    (db_update_concept r upd).module_id = r.module_id := by
  induction upd generalizing r with
  | nil => exact ⟨rfl, rfl⟩
  | cons kv rest ih =>
    show (db_update_concept (applyField r kv) rest).id = r.id ∧ _
    obtain ⟨h1, h2⟩ := ih (applyField r kv)
    obtain ⟨h3, h4⟩ := applyField_id_module r kv
    exact ⟨h1.trans h3, h2.trans h4⟩

theorem db_update_concept_content (r : ConceptRow)
    (upd : List (String × Val)) (h : ∀ kv ∈ upd, kv.1 ≠ "content") :
    (db_update_concept r upd).content = r.content := by
  induction upd generalizing r with
  | nil => rfl
  | cons kv rest ih =>
    show (db_update_concept (applyField r kv) rest).content = r.content
    have h1 := ih (applyField r kv) (fun kv2 hm => h kv2 (List.mem_cons_of_mem kv hm))
    have h2 := applyField_content r kv (h kv (List.mem_cons_self kv rest))
    exact h1.trans h2

theorem update_concept_route_ok (r : ConceptRow) (u : ConceptUpdate)
    (r' : ConceptRow) (h : update_concept_route (some r) u = Except.ok r') :
    r' = db_update_concept r
      (u.dump.filter fun kv => !(kv.1 == "content")) := by
  unfold update_concept_route at h
  dsimp only at h
  split at h
  · exact absurd h (by simp)
  · injection h with h2
    exact h2.symm

theorem mem_opt_entry {α : Type} (key : String) (f : α → Val) (o : Option α)
    (kv : String × Val)
    (hm : kv ∈ (o.map fun v => (key, f v)).toList) : kv.1 = key := by
  cases o with
  | none => cases hm
  | some v =>
    simp only [Option.map_some', Option.toList_some, List.mem_singleton] at hm
    rw [hm]

theorem ConceptUpdate_dump_no_content (u : ConceptUpdate) :
    ∀ kv ∈ u.dump, kv.1 ≠ "content" := by
  intro kv hm
  unfold ConceptUpdate.dump at hm
  rcases List.mem_append.mp hm with hm | hmE
  · rcases List.mem_append.mp hm with hm | hmD
    · rcases List.mem_append.mp hm with hm | hmC
      · rcases List.mem_append.mp hm with hmA | hmB
        · rw [mem_opt_entry "title" Val.s u.title kv hmA]
          decide
        · rw [mem_opt_entry "description" Val.s u.description kv hmB]
          decide
      · rw [mem_opt_entry "order_index" Val.n u.order_index kv hmC]
        decide
    · rw [mem_opt_entry "learning_objectives" Val.l u.learning_objectives kv hmD]
      decide
  · rw [mem_opt_entry "prerequisites" Val.l u.prerequisites kv hmE]
    decide

/-! ### Claim theorems -/

/-- C1 (counterexample): in the two-module scenario with the Content
Generator raising only on the second module's concept-planning call, the job
does NOT complete normally — `publish_course` re-raises the generator error,
refuting the claim that such a failure is caught at the per-module level. -/
theorem C1_counterexample :
    (run_publish_job env2 req2).outcome ≠ Except.ok () := by
  have h : (run_publish_job env2 req2).outcome = Except.error Err.genError :=
    rfl
  rw [h]
  simp

/-- C1 (amended): a per-module concept-planning failure is not caught at the
per-module level: an error result of `process_module` aborts the whole
module loop (so modules i+1..n are not processed and the job raises).  In
the two-module scenario the run ends with the generator error; module 2 was
created (order_index 2) before its concept planning, module 1 has its one
concept, and module 2 has zero concepts. -/
theorem C1_concept_planning_failure_aborts :
    (∀ (env : Env) (req : CoursePublishJobRequest) (cid : Nat)
        (raw : RawModulePlan) (rest : List RawModulePlan) (i : Nat) (s : St)
        (e : Err) (s' : St),
        process_module env req cid raw i s = (Except.error e, s') →
        modules_loop env req cid (raw :: rest) i s = (Except.error e, s')) ∧
    (run_publish_job env2 req2).outcome = Except.error Err.genError ∧
    (run_publish_job env2 req2).finalState.db.modules.map
        (fun m => m.order_index) = [1, 2] ∧
    ((run_publish_job env2 req2).finalState.db.concepts.filter
        fun c => c.module_id == 0).map (fun c => c.title) = ["K1"] ∧
    ((run_publish_job env2 req2).finalState.db.concepts.filter
        fun c => c.module_id == 1) = [] := by
  refine ⟨?_, rfl, rfl, rfl, rfl⟩
  intro env req cid raw rest i s e s' h
  unfold modules_loop
  rw [h]

/-- C1 (witness): the propagation part of the theorem applied at the
concrete failing module of the two-module scenario. -/
theorem C1_witness :
    modules_loop env2 req2 0 [rawM2] 1 stMid2
      = (Except.error Err.genError, stFail2) :=
  C1_concept_planning_failure_aborts.1 env2 req2 0 rawM2 [] 1 stMid2
    Err.genError stFail2 rfl

/-- C2 (counterexample): a successful one-module/one-concept job completes
four discrete units (`current_step = 4`) but its Job Progress Tracker entry
is written exactly once — at submission, with 0% pending — and never after
any unit, so the orchestrator does not update the tracker after every
discrete unit and the observed progress never reaches 100%. -/
theorem C2_counterexample :
    (run_publish_job env3 req3).outcome = Except.ok () ∧
    (run_publish_job env3 req3).finalState.current_step = 4 ∧
    (run_publish_job env3 req3).trackerHistory = [initialTrackerEntry] ∧
    initialTrackerEntry.progress_percentage = 0 ∧
    initialTrackerEntry.status = JobStatus.pending :=
  ⟨rfl, rfl, rfl, rfl, rfl⟩

/-- C2 (amended): the Job Progress Tracker entry of a publish job is written
exactly once, at submission (0%, pending); the orchestrator never updates it
after any discrete unit, so a polling client observes the constant value 0%
(trivially monotonically non-decreasing) and never observes 100%. -/
theorem C2_tracker_never_updated (env : Env)
    (req : CoursePublishJobRequest) :
    (run_publish_job env req).trackerHistory = [initialTrackerEntry] ∧
    ∀ t ∈ (run_publish_job env req).trackerHistory,
      t.status = JobStatus.pending ∧ t.progress_percentage = 0 := by
  refine ⟨rfl, ?_⟩
  intro t ht
  have h2 : t = initialTrackerEntry := by
    have h3 : (run_publish_job env req).trackerHistory
        = [initialTrackerEntry] := rfl
    rw [h3, List.mem_singleton] at ht
    exact ht
  rw [h2]
  exact ⟨rfl, rfl⟩

/-- C2 (witness): the theorem applied to the successful
one-module/one-concept job, with the membership hypothesis discharged at the
single tracker entry. -/
theorem C2_witness :
    initialTrackerEntry.status = JobStatus.pending ∧
    initialTrackerEntry.progress_percentage = 0 :=
  (C2_tracker_never_updated env3 req3).2 initialTrackerEntry
    (by rw [(C2_tracker_never_updated env3 req3).1]; exact List.mem_singleton.mpr rfl)

/-- C3 (counterexample): a publish job that completes normally and creates
its course leaves the Job record exactly as written at submission —
status "pending", no course id — refuting the claim that the record becomes
"completed" with the course id recorded. -/
theorem C3_counterexample :
    (run_publish_job env3 req3).outcome = Except.ok () ∧
    (run_publish_job env3 req3).finalState.db.courses.length = 1 ∧
    (run_publish_job env3 req3).trackerHistory = [initialTrackerEntry] ∧
    initialTrackerEntry.status ≠ JobStatus.completed ∧
    initialTrackerEntry.course_id = none := by
  refine ⟨rfl, rfl, rfl, ?_, rfl⟩
  decide

/-- C3 (amended): the Job record is never updated after submission: on any
outcome the only tracker value ever written is the pending 0% entry with no
course id and no error message.  A planning failure still raises out of the
orchestrator (but nothing records it into the Job record), while a
course-creation failure does not raise at all: `publish_course` logs and
returns normally. -/
theorem C3_job_record_stays_pending (env : Env)
    (req : CoursePublishJobRequest) :
    ((run_publish_job env req).trackerHistory.getLast?
        = some initialTrackerEntry ∧
      initialTrackerEntry.status = JobStatus.pending ∧
      initialTrackerEntry.course_id = none ∧
      initialTrackerEntry.error_message = none) ∧
    (∀ (e : Err) (s' : St),
      plan_course_and_modules env req (stPlanPoint req)
          = (Except.error e, s') →
      (run_publish_job env req).outcome = Except.error e) ∧
    (∀ (p : CoursePlan) (s' : St),
      plan_course_and_modules env req (stPlanPoint req) = (Except.ok p, s') →
      env.createCourseOk = false →
      (run_publish_job env req).outcome = Except.ok ()) := by
  refine ⟨⟨rfl, rfl, rfl, rfl⟩, ?_, ?_⟩
  · intro e s' h
    have h2 := publish_body_plan_error env req
      { initSt with total_steps := total_steps_of req } e s' h
    show (publish_body env req
      { initSt with total_steps := total_steps_of req }).1 = Except.error e
    rw [h2]
  · intro p s' h hc
    have h2 := publish_body_course_fail env req
      { initSt with total_steps := total_steps_of req } p s' h hc
    show (publish_body env req
      { initSt with total_steps := total_steps_of req }).1 = Except.ok ()
    rw [h2]

/-- C3 (witness): with the planning stage succeeding and the course insert
raising (`env5`), the orchestrator returns normally — the hypotheses of the
theorem discharged at a concrete run. -/
theorem C3_witness : (run_publish_job env5 req3).outcome = Except.ok () :=
  (C3_job_record_stays_pending env5 req3).2.2
    { course_title := "T", course_description := "D"
      module_plans := [{ module_title := "M1", module_description := "d1" }] }
    ((plan_course_and_modules env5 req3 (stPlanPoint req3)).2) rfl rfl

/-- C4: fully manual publish job (course title, one module, one manual
concept).  The run completes, the Concept row is created, but the Content
Generator is called zero times (not once per concept) and the concept's
content is never filled in: the agent's call to
`prompt_service.generate_concept_prompt` passes a `workflow_step` keyword
that `PromptService.generate_concept_prompt` does not accept, so every
per-concept unit dies on a `TypeError` before reaching content generation —
contradicting the spec and the repo's own
`test_publish_course_fully_manual`, which asserts exactly one
`generate_content` call. -/
theorem C4_manual_job_never_generates_content :
    (run_publish_job env4 req4).outcome = Except.ok () ∧
    (run_publish_job env4 req4).finalState.createConceptCalls = 1 ∧
    (run_publish_job env4 req4).finalState.llmCalls = 0 ∧
    (run_publish_job env4 req4).finalState.db.concepts.map
        (fun c => c.content) = [""] ∧
    (run_publish_job env4 req4).finalState.updateConceptCalls = 0 :=
  ⟨rfl, rfl, rfl, rfl, rfl⟩

/-- C5: if persisting the Course record fails, the job aborts with no module
or concept row created and no `create_module`/`create_concept` call ever
attempted. -/
theorem C5_course_failure_aborts_job (env : Env)
    (req : CoursePublishJobRequest) (h : env.createCourseOk = false) :
    (run_publish_job env req).finalState.db.modules = [] ∧
    (run_publish_job env req).finalState.db.concepts = [] ∧
    (run_publish_job env req).finalState.createModuleCalls = 0 ∧
    (run_publish_job env req).finalState.createConceptCalls = 0 := by
  have hst := publish_body_course_fail_state env req
    { initSt with total_steps := total_steps_of req } h
  exact ⟨hst.1, hst.2.1, hst.2.2.1, hst.2.2.2⟩

/-- C5 (witness): the theorem at the concrete environment whose course
insert raises. -/
theorem C5_witness :
    (run_publish_job env5 req3).finalState.db.modules = [] ∧
    (run_publish_job env5 req3).finalState.db.concepts = [] ∧
    (run_publish_job env5 req3).finalState.createModuleCalls = 0 ∧
    (run_publish_job env5 req3).finalState.createConceptCalls = 0 :=
  C5_course_failure_aborts_job env5 req3 rfl

/-- C6: when `create_module` raises for module i, the loop body returns
normally having only bumped the step and module-call counters — the store
(hence module i's concepts) and the LLM call counter are untouched — and
the loop goes on to modules i+1..n. -/
theorem C6_module_failure_skips_to_next (env : Env)
    (req : CoursePublishJobRequest) (cid : Nat) (raw : RawModulePlan)
    (rest : List RawModulePlan) (i : Nat) (s : St)
    (h : env.createModuleOk s.createModuleCalls = false) :
    process_module env req cid raw i s
      = (Except.ok (), { s with
          current_step := s.current_step + 1
          createModuleCalls := s.createModuleCalls + 1 }) ∧
    (process_module env req cid raw i s).2.db = s.db ∧
    (process_module env req cid raw i s).2.llmCalls = s.llmCalls ∧
    modules_loop env req cid (raw :: rest) i s
      = modules_loop env req cid rest (i + 1)
          { s with
            current_step := s.current_step + 1
            createModuleCalls := s.createModuleCalls + 1 } := by
  have hcme : create_module_entry env cid
      { title := raw.module_title
        description := some raw.module_description
        concepts := none } (i + 1)
      { s with current_step := s.current_step + 1 }
      = (none, { s with
          current_step := s.current_step + 1
          createModuleCalls := s.createModuleCalls + 1 }) := by
    unfold create_module_entry
    simp [h]
  have hpm : process_module env req cid raw i s
      = (Except.ok (), { s with
          current_step := s.current_step + 1
          createModuleCalls := s.createModuleCalls + 1 }) := by
    unfold process_module
    dsimp only
    rw [hcme]
  refine ⟨hpm, by rw [hpm], by rw [hpm], ?_⟩
  conv_lhs => unfold modules_loop
  rw [hpm]

/-- C6 (witness): the theorem at the concrete environment whose first
`create_module` call raises, starting from the initial state. -/
theorem C6_witness :
    process_module env6 req6 0 { module_title := "A", module_description := "da" } 0 initSt
      = (Except.ok (), { initSt with
          current_step := initSt.current_step + 1
          createModuleCalls := initSt.createModuleCalls + 1 }) ∧
    (process_module env6 req6 0
        { module_title := "A", module_description := "da" } 0 initSt).2.db
      = initSt.db ∧
    (process_module env6 req6 0
        { module_title := "A", module_description := "da" } 0 initSt).2.llmCalls
      = initSt.llmCalls ∧
    modules_loop env6 req6 0
        [{ module_title := "A", module_description := "da" },
         { module_title := "B", module_description := "db" }] 0 initSt
      = modules_loop env6 req6 0
          [{ module_title := "B", module_description := "db" }] 1
          { initSt with
            current_step := initSt.current_step + 1
            createModuleCalls := initSt.createModuleCalls + 1 } :=
  C6_module_failure_skips_to_next env6 req6 0
    { module_title := "A", module_description := "da" }
    [{ module_title := "B", module_description := "db" }] 0 initSt rfl

/-- C7: `total_steps` is computed exactly once at job start as
`3 + numModules + numModules * conceptsPerModule` (with numModules the
length of a truthy manual modules list, else `num_modules`), and the whole
body of the run after that assignment never changes it. -/
theorem C7_total_steps_computed_once (env : Env)
    (req : CoursePublishJobRequest) :
    (run_publish_job env req).finalState.total_steps
      = 3 + num_modules_of req
          + num_modules_of req * req.concepts_per_module ∧
    ∀ s : St, (publish_body env req s).2.total_steps = s.total_steps := by
  constructor
  · show (publish_body env req
      { initSt with total_steps := total_steps_of req }).2.total_steps = _
    rw [publish_body_total_steps]
    rfl
  · exact publish_body_total_steps env req

/-- C8: in any publish run started from the empty store, the `order_index`
column of the created modules is a strictly increasing sequence of positive
integers in creation (plan) order, and so is the `order_index` column of the
concepts created under each module id. -/
theorem C8_order_index_strict (env : Env) (req : CoursePublishJobRequest) :
    (modOrders (run_publish_job env req).finalState.db).Pairwise (· < ·) ∧
    (∀ m ∈ (run_publish_job env req).finalState.db.modules,
      1 ≤ m.order_index) ∧
    (∀ mid, (cOrders (run_publish_job env req).finalState.db mid).Pairwise
      (· < ·)) ∧
    (∀ c ∈ (run_publish_job env req).finalState.db.concepts,
      1 ≤ c.order_index) := by
  have h0m : ModuleInv initSt.db 0 := by
    constructor
    · exact List.Pairwise.nil
    · intro m hm
      exact absurd hm (List.not_mem_nil m)
  have h0c : ConceptInv initSt.db := by
    refine ⟨fun mid => List.Pairwise.nil, ?_, ?_⟩
    · intro c hc
      exact absurd hc (List.not_mem_nil c)
    · intro c hc
      exact absurd hc (List.not_mem_nil c)
  obtain ⟨⟨b, hm⟩, hc⟩ := publish_body_inv env req
    { initSt with total_steps := total_steps_of req } h0m h0c
  exact ⟨hm.1, fun m hmem => (hm.2 m hmem).1, hc.1, hc.2.1⟩

/-- C8 (witness): the theorem at the successful one-module/one-concept
run. -/
theorem C8_witness :
    (modOrders (run_publish_job env3 req3).finalState.db).Pairwise (· < ·) ∧
    (∀ m ∈ (run_publish_job env3 req3).finalState.db.modules,
      1 ≤ m.order_index) ∧
    (∀ mid, (cOrders (run_publish_job env3 req3).finalState.db mid).Pairwise
      (· < ·)) ∧
    (∀ c ∈ (run_publish_job env3 req3).finalState.db.concepts,
      1 ≤ c.order_index) :=
  C8_order_index_strict env3 req3

/-- C9: the plan-normalization key renamings (module_title→title,
module_description→description; concept_title→title,
concept_description→description) are idempotent on every dictionary. -/
theorem C9_normalization_idem :
    (∀ d : Dict, normalizeModulePlanDict (normalizeModulePlanDict d)
      = normalizeModulePlanDict d) ∧
    (∀ d : Dict, normalizeConceptPlanDict (normalizeConceptPlanDict d)
      = normalizeConceptPlanDict d) := by
  constructor
  · intro d
    exact renameTwoKeys_idem "module_title" "title" "module_description"
      "description" d (by decide) (by decide) (by decide) (by decide)
      (by decide) (by decide)
  · intro d
    exact renameTwoKeys_idem "concept_title" "title" "concept_description"
      "description" d (by decide) (by decide) (by decide) (by decide)
      (by decide) (by decide)

/-- C10: a successful PUT /concepts/{id} update never changes the stored
concept's `content` (nor its id or module linkage): the `ConceptUpdate`
schema dumps no `content` key at all, and the route additionally strips any
`content` key before persisting. -/
theorem C10_update_concept_preserves_content (r : ConceptRow)
    (u : ConceptUpdate) (r' : ConceptRow)
    (h : update_concept_route (some r) u = Except.ok r') :
    r'.content = r.content ∧ r'.id = r.id ∧ r'.module_id = r.module_id ∧
    (∀ kv ∈ u.dump, kv.1 ≠ "content") := by
  have hr := update_concept_route_ok r u r' h
  subst hr
  refine ⟨?_, (db_update_concept_id_module r _).1,
    (db_update_concept_id_module r _).2, ConceptUpdate_dump_no_content u⟩
  apply db_update_concept_content
  intro kv hm
  rw [List.mem_filter] at hm
  have h2 := hm.2
  simp only [Bool.not_eq_true', beq_eq_false_iff_ne, ne_eq] at h2
  simpa using h2

/-- C10 (witness): a concrete metadata-only update (title change) through
the route leaves content, id and module id untouched. -/
theorem C10_witness :
    ({ row0 with title := "New" } : ConceptRow).content = row0.content ∧
    ({ row0 with title := "New" } : ConceptRow).id = row0.id ∧
    ({ row0 with title := "New" } : ConceptRow).module_id = row0.module_id ∧
    (∀ kv ∈ upd0.dump, kv.1 ≠ "content") :=
  C10_update_concept_preserves_content row0 upd0
    { row0 with title := "New" } rfl
